import Mathlib

/-!
Verification of the animation/camera/particle simulation core of the
ComputerGraphicsCwk2 scene viewer.

Floating-point values of the source are modelled as exact rationals (for the
particle pool and the animation clock, which use only field arithmetic and
comparisons) or as real numbers (for the trajectory, rotation and camera code,
which use sin, cos, sqrt, asin, acos and atan2).  The C++ random number
generator is modelled as an abstract stream of sampled values handed to the
emitter.
-/

open scoped Classical

/-- Vector with three components, after the Vec3f of the vmlib library.
Modelled from the spec: vec3.hpp is not part of the sources; the spec lists
the vector library as an external collaborator with the standard
cross/dot/normalize operations. -/
structure Vec3 (α : Type) where
  x : α
  y : α
  z : α
deriving DecidableEq

/-- Vector with four components, after the Vec4f of the vmlib library.
Modelled from the spec: vec4.hpp is not part of the sources. -/
structure Vec4 (α : Type) where
  x : α
  y : α
  z : α
  w : α
deriving DecidableEq

instance {α : Type} [Add α] : Add (Vec3 α) where
  add a b := ⟨a.x + b.x, a.y + b.y, a.z + b.z⟩

instance {α : Type} [Sub α] : Sub (Vec3 α) where
  sub a b := ⟨a.x - b.x, a.y - b.y, a.z - b.z⟩

instance {α : Type} [Neg α] : Neg (Vec3 α) where
  neg a := ⟨-a.x, -a.y, -a.z⟩

/-- Componentwise scaling, the `Vec3f * float` operator of vmlib.
Modelled from the spec: vec3.hpp is not part of the sources. -/
def smul3 {α : Type} [Mul α] (v : Vec3 α) (s : α) : Vec3 α :=
  ⟨v.x * s, v.y * s, v.z * s⟩

/-- Dot product of two 3-vectors.
Modelled from the spec: vec3.hpp is not part of the sources. -/
def dot3 {α : Type} [Mul α] [Add α] (a b : Vec3 α) : α :=
  a.x * b.x + a.y * b.y + a.z * b.z

/-- Cross product of two 3-vectors.
Modelled from the spec: vec3.hpp is not part of the sources. -/
def cross3 {α : Type} [Mul α] [Sub α] (a b : Vec3 α) : Vec3 α :=
  ⟨a.y * b.z - a.z * b.y, a.z * b.x - a.x * b.z, a.x * b.y - a.y * b.x⟩

/-- Euclidean length of a 3-vector.
Modelled from the spec: vec3.hpp is not part of the sources. -/
noncomputable def length3 (v : Vec3 ℝ) : ℝ :=
  Real.sqrt (dot3 v v)

/-- Normalization of a 3-vector.
Modelled from the spec: vec3.hpp is not part of the sources. -/
noncomputable def normalize3 (v : Vec3 ℝ) : Vec3 ℝ :=
  smul3 v (1 / length3 v)

/-- Mat44f of vmlib/mat44.hpp: a 4x4 matrix stored in row-major order as
sixteen scalars. -/
structure Mat44 where
  v : Fin 16 → ℝ

/-- kIdentity44f of vmlib/mat44.hpp. -/
noncomputable def kIdentity44f : Mat44 :=
  ⟨![1, 0, 0, 0,
     0, 1, 0, 0,
     0, 0, 1, 0,
     0, 0, 0, 1]⟩

/-- make_rotation_y of vmlib/mat44.hpp. -/
noncomputable def make_rotation_y (aAngle : ℝ) : Mat44 :=
  let c := Real.cos aAngle
  let s := Real.sin aAngle
  ⟨![  c, 0, s, 0,
       0, 1, 0, 0,
      -s, 0, c, 0,
       0, 0, 0, 1]⟩

/-! ## Trajectory evaluation (main.cpp, animation trajectory block) -/

/-- accelerationPhase of the trajectory block of main.cpp: the first 3 seconds
are the acceleration phase. -/
noncomputable def accelerationPhase : ℝ := 3.0

/-- maxDistance of the trajectory block of main.cpp. -/
noncomputable def maxDistance : ℝ := 300.0

/-- maxHeight of the trajectory block of main.cpp. -/
noncomputable def maxHeight : ℝ := 200.0

/-- normalizedT of main.cpp: quadratic ease-in during the acceleration phase,
then linear growth at constant rate. -/
noncomputable def normalizedT (t : ℝ) : ℝ :=
  if t < accelerationPhase then (t / accelerationPhase) * (t / accelerationPhase)
  else 1.0 + (t - accelerationPhase) / accelerationPhase

/-- normalizedTVelocity of main.cpp: the time derivative of normalizedT. -/
noncomputable def normalizedTVelocity (t : ℝ) : ℝ :=
  if t < accelerationPhase then 2.0 * (t / accelerationPhase) / accelerationPhase
  else 1.0 / accelerationPhase

/-- tProgress of main.cpp: progress clamped to at most one. -/
noncomputable def tProgress (t : ℝ) : ℝ :=
  min (normalizedT t) 1.0

/-- vertical of main.cpp: the height offset of the vehicle. -/
noncomputable def vertical (t : ℝ) : ℝ :=
  tProgress t * maxHeight * (1.0 - tProgress t * 0.4)

/-- forwardDist of main.cpp: the forward-distance offset of the vehicle. -/
noncomputable def forwardDist (t : ℝ) : ℝ :=
  tProgress t * tProgress t * tProgress t * maxDistance

/-- horizontalCurve of main.cpp: the lateral offset of the vehicle. -/
noncomputable def horizontalCurve (t : ℝ) : ℝ :=
  Real.sin (tProgress t * Real.pi * 0.5) * maxDistance * 0.15

/-- current_vehicle_pos of main.cpp while the animation is active: original
position plus the trajectory offset. -/
noncomputable def vehiclePosition (vehicleOriginalPos : Vec3 ℝ) (t : ℝ) : Vec3 ℝ :=
  vehicleOriginalPos + ⟨horizontalCurve t, vertical t, -forwardDist t⟩

/-- dtProgress_dT of main.cpp. -/
noncomputable def dtProgress_dT (t : ℝ) : ℝ :=
  normalizedTVelocity t

/-- dX_dT of main.cpp: derivative of the lateral offset. -/
noncomputable def dX_dT (t : ℝ) : ℝ :=
  Real.cos (tProgress t * Real.pi * 0.5) * Real.pi * 0.5 * maxDistance * 0.15 * dtProgress_dT t

/-- dY_dT of main.cpp: derivative of the height offset. -/
noncomputable def dY_dT (t : ℝ) : ℝ :=
  dtProgress_dT t * maxHeight * (1.0 - 2.0 * tProgress t * 0.4)

/-- dZ_dT of main.cpp: derivative of the (negated) forward offset. -/
noncomputable def dZ_dT (t : ℝ) : ℝ :=
  -3.0 * tProgress t * tProgress t * maxDistance * dtProgress_dT t

/-- velocity of main.cpp: the trajectory tangent vector. -/
noncomputable def velocity (t : ℝ) : Vec3 ℝ :=
  ⟨dX_dT t, dY_dT t, dZ_dT t⟩

/-- rocketForward of main.cpp: the vehicle's body-forward axis (+Y, the mesh
is modelled vertically). -/
def rocketForward : Vec3 ℝ :=
  ⟨0, 1, 0⟩

/-- Rodrigues rotation matrix literal of main.cpp, built from a unit axis and
an angle. -/
noncomputable def rodriguesMat (axis : Vec3 ℝ) (angle : ℝ) : Mat44 :=
  let c := Real.cos angle
  let s := Real.sin angle
  let t_rot := 1.0 - c
  ⟨![t_rot * axis.x * axis.x + c,
     t_rot * axis.x * axis.y - s * axis.z,
     t_rot * axis.x * axis.z + s * axis.y,
     0,
     t_rot * axis.x * axis.y + s * axis.z,
     t_rot * axis.y * axis.y + c,
     t_rot * axis.y * axis.z - s * axis.x,
     0,
     t_rot * axis.x * axis.z - s * axis.y,
     t_rot * axis.y * axis.z + s * axis.x,
     t_rot * axis.z * axis.z + c,
     0,
     0, 0, 0, 1]⟩

/-- The vehicle_rotation computation of main.cpp as a function of the tangent
vector: normalize the tangent, rotate the body-forward axis onto it by
Rodrigues' formula, with the degenerate branches of the source. -/
noncomputable def tangentRotation (vel : Vec3 ℝ) : Mat44 :=
  if 0.001 < length3 vel then
    let tangentDir := normalize3 vel
    let targetForward := tangentDir
    let axis0 := cross3 rocketForward targetForward
    let axisLen := length3 axis0
    if 0.001 < axisLen then
      let axis := normalize3 axis0
      let cosAngle := max (-1.0) (min 1.0 (dot3 rocketForward targetForward))
      let angle := Real.arccos cosAngle
      rodriguesMat axis angle
    else if dot3 rocketForward targetForward < -0.99 then
      make_rotation_y Real.pi
    else
      kIdentity44f
  else
    kIdentity44f

/-- vehicle_rotation of main.cpp for an animation time t. -/
noncomputable def vehicleRotation (t : ℝ) : Mat44 :=
  tangentRotation (velocity t)

/-! ## Camera (support/camera.cpp) -/

/-- Camera of support/camera.hpp: position, orthonormal basis, yaw and
pitch. -/
structure Camera where
  position : Vec3 ℝ
  forward : Vec3 ℝ
  right : Vec3 ℝ
  up : Vec3 ℝ
  yaw : ℝ
  pitch : ℝ

/-- Camera constructor of camera.cpp. -/
def Camera.init : Camera :=
  { position := ⟨0, 0, 0⟩
    forward := ⟨0, 0, -1⟩
    right := ⟨1, 0, 0⟩
    up := ⟨0, 1, 0⟩
    yaw := 0
    pitch := 0 }

/-- update_vectors of camera.cpp: recompute the orientation basis from yaw and
pitch. -/
noncomputable def Camera.update_vectors (c : Camera) : Camera :=
  let fw : Vec3 ℝ :=
    ⟨Real.cos c.yaw * Real.cos c.pitch, Real.sin c.pitch, Real.sin c.yaw * Real.cos c.pitch⟩
  let forward := normalize3 fw
  let worldUp : Vec3 ℝ := ⟨0, 1, 0⟩
  let right := normalize3 (cross3 forward worldUp)
  let up := normalize3 (cross3 right forward)
  { c with forward := forward, right := right, up := up }

/-- move_forward of camera.cpp. -/
def Camera.move_forward (c : Camera) (distance : ℝ) : Camera :=
  { c with position := c.position + smul3 c.forward distance }

/-- move_backward of camera.cpp. -/
def Camera.move_backward (c : Camera) (distance : ℝ) : Camera :=
  { c with position := c.position + -smul3 c.forward distance }

/-- move_left of camera.cpp. -/
def Camera.move_left (c : Camera) (distance : ℝ) : Camera :=
  { c with position := c.position + -smul3 c.right distance }

/-- move_right of camera.cpp. -/
def Camera.move_right (c : Camera) (distance : ℝ) : Camera :=
  { c with position := c.position + smul3 c.right distance }

/-- move_up of camera.cpp. -/
def Camera.move_up (c : Camera) (distance : ℝ) : Camera :=
  { c with position := c.position + smul3 c.up distance }

/-- move_down of camera.cpp. -/
def Camera.move_down (c : Camera) (distance : ℝ) : Camera :=
  { c with position := c.position + -smul3 c.up distance }

/-- rotate_yaw of camera.cpp. -/
noncomputable def Camera.rotate_yaw (c : Camera) (angle : ℝ) : Camera :=
  Camera.update_vectors { c with yaw := c.yaw + angle }

/-- rotate_pitch of camera.cpp: add the angle, then clamp the pitch to the
interval from -1.55 to 1.55 radians, then recompute the basis. -/
noncomputable def Camera.rotate_pitch (c : Camera) (angle : ℝ) : Camera :=
  let pitch0 := c.pitch + angle
  let pitch1 := if pitch0 > 1.55 then 1.55 else pitch0
  let pitch2 := if pitch1 < -1.55 then -1.55 else pitch1
  Camera.update_vectors { c with pitch := pitch2 }

/-- set_position of camera.hpp. -/
def Camera.set_position (c : Camera) (pos : Vec3 ℝ) : Camera :=
  { c with position := pos }

/-- Model of std::atan2 on the reals, used by look_at.
Modelled from the spec: the C++ standard library atan2 is external to the
sources. -/
noncomputable def atan2 (y x : ℝ) : ℝ :=
  if 0 < x then Real.arctan (y / x)
  else if x < 0 then
    (if 0 ≤ y then Real.arctan (y / x) + Real.pi else Real.arctan (y / x) - Real.pi)
  else
    (if 0 < y then Real.pi / 2 else if y < 0 then -(Real.pi / 2) else 0)

/-- look_at of camera.cpp: aim the camera at a target, recompute the basis and
derive yaw and pitch from the new forward vector.  The pitch is set to
asin of the forward y component and is not clamped. -/
noncomputable def Camera.look_at (c : Camera) (target worldUp : Vec3 ℝ) : Camera :=
  let forward := normalize3 (target - c.position)
  let right := normalize3 (cross3 forward worldUp)
  let up := normalize3 (cross3 right forward)
  { c with forward := forward, right := right, up := up
           pitch := Real.arcsin forward.y
           yaw := atan2 forward.z forward.x }

/-! ## Camera modes and the per-frame camera update (main.cpp) -/

/-- CameraMode of main.cpp. -/
inductive CameraMode where
  | Free : CameraMode
  | Follow : CameraMode
  | Ground : CameraMode
deriving DecidableEq

/-- The per-frame inputs consumed by update_camera_by_mode of main.cpp:
vehicle pose, original vehicle position, frame delta time and the movement
key flags. -/
structure FrameInput where
  vehiclePos : Vec3 ℝ
  vehicleRot : Mat44
  vehicleOriginalPos : Vec3 ℝ
  deltaTime : ℝ
  moveForward : Bool
  moveBackward : Bool
  moveLeft : Bool
  moveRight : Bool
  moveUp : Bool
  moveDown : Bool
  speedBoost : Bool
  speedSlow : Bool

/-- update_camera_by_mode of main.cpp: returns the new camera and the new
saved free camera.  In Free mode the movement keys are applied and the free
camera slot is overwritten with the result; in Follow and Ground modes the
camera is recomputed from the vehicle pose and the free camera slot is left
untouched. -/
noncomputable def update_camera_by_mode
    (camera freeCamera : Camera) (mode : CameraMode) (inp : FrameInput) :
    Camera × Camera :=
  match mode with
  | CameraMode.Free =>
    let baseSpeed0 : ℝ := 20.0
    let baseSpeed1 := if inp.speedBoost then baseSpeed0 * 3.0 else baseSpeed0
    let baseSpeed2 := if inp.speedSlow then baseSpeed1 * 0.2 else baseSpeed1
    let moveDistance := baseSpeed2 * inp.deltaTime
    let c1 := if inp.moveForward then Camera.move_forward camera moveDistance else camera
    let c2 := if inp.moveBackward then Camera.move_backward c1 moveDistance else c1
    let c3 := if inp.moveLeft then Camera.move_left c2 moveDistance else c2
    let c4 := if inp.moveRight then Camera.move_right c3 moveDistance else c3
    let c5 := if inp.moveUp then Camera.move_up c4 moveDistance else c4
    let c6 := if inp.moveDown then Camera.move_down c5 moveDistance else c5
    (c6, c6)
  | CameraMode.Follow =>
    let followDistance : ℝ := 30.0
    let followHeight : ℝ := 15.0
    let vehicleForward : Vec3 ℝ :=
      ⟨-inp.vehicleRot.v 8, -inp.vehicleRot.v 9, -inp.vehicleRot.v 10⟩
    let vehicleUp : Vec3 ℝ :=
      ⟨inp.vehicleRot.v 4, inp.vehicleRot.v 5, inp.vehicleRot.v 6⟩
    let cameraOffset := smul3 (-vehicleForward) followDistance + smul3 vehicleUp followHeight
    let cameraPos := inp.vehiclePos + cameraOffset
    let c := Camera.look_at (Camera.set_position camera cameraPos) inp.vehiclePos ⟨0, 1, 0⟩
    (c, freeCamera)
  | CameraMode.Ground =>
    let g0 := inp.vehicleOriginalPos
    let g1 : Vec3 ℝ := ⟨g0.x + 20.0, 5.0, g0.z + 20.0⟩
    let c := Camera.look_at (Camera.set_position camera g1) inp.vehiclePos ⟨0, 1, 0⟩
    (c, freeCamera)

/-- The single-screen camera state of the State struct of main.cpp: the live
camera, the saved free camera and the current mode. -/
structure RigState where
  camera : Camera
  freeCamera : Camera
  mode : CameraMode

/-- The single-screen C-key handler of glfw_callback_key_ in main.cpp:
leaving Free saves the camera into the free slot, re-entering Free restores
it. -/
def pressC_single (s : RigState) : RigState :=
  match s.mode with
  | CameraMode.Free => { s with mode := CameraMode.Follow, freeCamera := s.camera }
  | CameraMode.Follow => { s with mode := CameraMode.Ground }
  | CameraMode.Ground => { s with mode := CameraMode.Free, camera := s.freeCamera }

/-- One main-loop camera update of main.cpp: update_camera_by_mode applied to
the single-screen camera pair. -/
noncomputable def frame_update (s : RigState) (inp : FrameInput) : RigState :=
  let p := update_camera_by_mode s.camera s.freeCamera s.mode inp
  { s with camera := p.1, freeCamera := p.2 }

/-- A sequence of main-loop camera updates. -/
noncomputable def applyFrames (s : RigState) : List FrameInput → RigState
  | [] => s
  | inp :: rest => applyFrames (frame_update s inp) rest

/-! ## Animation clock (main.cpp state fields and handlers) -/

/-- The animation clock fields of the State struct of main.cpp. -/
structure ClockState where
  animationActive : Bool
  animationPaused : Bool
  animationTime : ℚ
deriving DecidableEq

/-- The F-key handler of glfw_callback_key_ in main.cpp: start the animation
when it is not active, otherwise toggle the pause flag. -/
def pressF (s : ClockState) : ClockState :=
  if !s.animationActive then
    { animationActive := true, animationPaused := false, animationTime := 0 }
  else
    { s with animationPaused := !s.animationPaused }

/-- The R-key handler of glfw_callback_key_ in main.cpp: reset the
animation. -/
def pressR (_ : ClockState) : ClockState :=
  { animationActive := false, animationPaused := false, animationTime := 0 }

/-- The Launch button callback of main.cpp. -/
def launch_button (_ : ClockState) : ClockState :=
  { animationActive := true, animationPaused := false, animationTime := 0 }

/-- The Reset button callback of main.cpp. -/
def reset_button (_ : ClockState) : ClockState :=
  { animationActive := false, animationPaused := false, animationTime := 0 }

/-- The per-frame time advance of main.cpp: animationTime grows by deltaTime
only while active and not paused. -/
def clock_tick (s : ClockState) (deltaTime : ℚ) : ClockState :=
  if s.animationActive && !s.animationPaused then
    { s with animationTime := s.animationTime + deltaTime }
  else s

/-! ## Particle system (support/particle_system.cpp) -/

/-- Particle of particle_system.hpp. -/
structure Particle where
  position : Vec3 ℚ
  velocity : Vec3 ℚ
  color : Vec4 ℚ
  lifetime : ℚ
  size : ℚ
  active : Bool
deriving DecidableEq

/-- One batch of draws of the random number generator of
particle_system.cpp: the sampled lifetime, size, cone direction, speed and
color channels for one emitted particle.  The mt19937 generator itself is
modelled as an abstract stream of such draws. -/
structure Draw where
  lifetime : ℚ
  size : ℚ
  dir : Vec3 ℚ
  speed : ℚ
  r : ℚ
  g : ℚ
  b : ℚ

/-- ParticleSystem of particle_system.hpp: the fixed pool and the emission
parameters.  The OpenGL handles of the source carry no simulation state and
are omitted. -/
structure ParticleSystem where
  particles : List Particle
  maxParticles : ℕ
  emissionRate : ℚ
  emissionAccumulator : ℚ
  minLifetime : ℚ
  maxLifetime : ℚ
  minSize : ℚ
  maxSize : ℚ
  minSpeed : ℚ
  maxSpeed : ℚ
  emissionDirection : Vec3 ℚ
  emissionSpread : ℚ

/-- A pool slot before first use: the constructor only clears the active
flag, the numeric fields start zeroed. -/
def initParticle : Particle :=
  { position := ⟨0, 0, 0⟩
    velocity := ⟨0, 0, 0⟩
    color := ⟨0, 0, 0, 0⟩
    lifetime := 0
    size := 0
    active := false }

/-- The ParticleSystem constructor of particle_system.cpp: a pool of
maxParticles inactive slots and the default emission parameters. -/
def ParticleSystem.create (maxParticles : ℕ) : ParticleSystem :=
  { particles := List.replicate maxParticles initParticle
    maxParticles := maxParticles
    emissionRate := 100
    emissionAccumulator := 0
    minLifetime := 1
    maxLifetime := 2
    minSize := 1/2
    maxSize := 3/2
    minSpeed := 5
    maxSpeed := 15
    emissionDirection := ⟨0, -1, 0⟩
    emissionSpread := 3/10 }

/-- set_emission_rate of particle_system.cpp. -/
def ParticleSystem.set_emission_rate (ps : ParticleSystem) (particlesPerSecond : ℚ) :
    ParticleSystem :=
  { ps with emissionRate := particlesPerSecond }

/-- The static_cast to int of particle_system.cpp: truncation toward zero. -/
def truncToInt (x : ℚ) : ℤ :=
  if 0 ≤ x then ⌊x⌋ else ⌈x⌉

/-- find_inactive_particle of particle_system.cpp: linear scan for the first
slot whose active flag is clear; none when the pool is full. -/
def find_inactive_particle : List Particle → Option ℕ
  | [] => none
  | p :: rest =>
    if p.active then (find_inactive_particle rest).map (· + 1)
    else some 0

/-- The initialization of one emitted particle in the emission loop of
particle_system.cpp, with the random draws supplied by the oracle. -/
def make_particle (emitterPosition : Vec3 ℚ) (d : Draw) : Particle :=
  { active := true
    position := emitterPosition
    lifetime := d.lifetime
    size := d.size
    velocity := smul3 d.dir d.speed
    color := ⟨d.r, d.g, d.b, 1⟩ }

/-- The emission loop of particle_system.cpp: up to n iterations, each taking
the first inactive slot; the loop breaks as soon as no free slot exists. -/
def emitLoop (emitterPosition : Vec3 ℚ) (draws : ℕ → Draw) :
    ℕ → ℕ → List Particle → List Particle
  | 0, _, l => l
  | n + 1, i, l =>
    match find_inactive_particle l with
    | none => l
    | some idx =>
      emitLoop emitterPosition draws n (i + 1) (l.set idx (make_particle emitterPosition (draws i)))

/-- emit_particles of particle_system.cpp: add rate times dt to the
accumulator, compute the integer emission count by the int cast, subtract it
from the accumulator, then run the emission loop. -/
def ParticleSystem.emit_particles (ps : ParticleSystem) (deltaTime : ℚ)
    (emitterPosition : Vec3 ℚ) (draws : ℕ → Draw) : ParticleSystem :=
  let acc := ps.emissionAccumulator + ps.emissionRate * deltaTime
  let particlesToEmit := truncToInt acc
  { ps with
      emissionAccumulator := acc - particlesToEmit
      particles := emitLoop emitterPosition draws particlesToEmit.toNat 0 ps.particles }

/-- The per-particle aging step of ParticleSystem::update: subtract dt from
the lifetime, deactivate at or below zero, otherwise advance the position and
set the alpha channel to the lifetime ratio against the configured maximum
lifetime. -/
def age_particle (deltaTime maxLifetime : ℚ) (p : Particle) : Particle :=
  if p.active then
    let lifetime := p.lifetime - deltaTime
    if lifetime ≤ 0 then { p with lifetime := lifetime, active := false }
    else
      { p with
          lifetime := lifetime
          position := p.position + smul3 p.velocity deltaTime
          color := { p.color with w := lifetime / maxLifetime } }
  else p

/-- ParticleSystem::update of particle_system.cpp: age every particle, then
emit when the emitting flag is set. -/
def ParticleSystem.update (ps : ParticleSystem) (deltaTime : ℚ)
    (emitterPosition : Vec3 ℚ) (emitting : Bool) (draws : ℕ → Draw) : ParticleSystem :=
  let aged := { ps with particles := ps.particles.map (age_particle deltaTime ps.maxLifetime) }
  if emitting then aged.emit_particles deltaTime emitterPosition draws else aged

/-- The number of active particles in the pool. -/
def activeCount (ps : ParticleSystem) : ℕ :=
  ps.particles.countP (fun p => p.active)

/-- The number of free (inactive) slots in the pool. -/
def freeCount (ps : ParticleSystem) : ℕ :=
  ps.particles.countP (fun p => !p.active)

/-- One per-frame call to ParticleSystem::update: the delta time, the emitter
position, the emitting flag and the random draws of that frame. -/
structure UpdateCall where
  deltaTime : ℚ
  emitterPosition : Vec3 ℚ
  emitting : Bool
  draws : ℕ → Draw

/-- A sequence of ParticleSystem::update calls. -/
def applyUpdates (ps : ParticleSystem) : List UpdateCall → ParticleSystem
  | [] => ps
  | u :: rest => applyUpdates (ps.update u.deltaTime u.emitterPosition u.emitting u.draws) rest

/-! ## Concrete instances used by the witnesses -/

/-- A fixed draw used by the witness instantiations. -/
def drawW : Draw :=
  { lifetime := 3/2, size := 1, dir := ⟨0, -1, 0⟩, speed := 10, r := 9/10, g := 6/10, b := 2/10 }

/-- A particle system at rate 200 with a pool of 30 slots, as configured for
the witness of the concrete emission scenario. -/
def psW : ParticleSystem :=
  ParticleSystem.set_emission_rate (ParticleSystem.create 30) 200

/-- A single active particle used by the survivor-alpha witness. -/
def pW : Particle :=
  { position := ⟨1, 2, 3⟩, velocity := ⟨2, 0, 0⟩, color := ⟨1, 1, 1, 1⟩
    lifetime := 1, size := 1, active := true }

/-- A one-slot pool holding pW, used by the survivor-alpha witness. -/
def psW6 : ParticleSystem :=
  { ParticleSystem.create 1 with particles := [pW] }

/-- A camera rig in Free mode used by the mode round-trip witness. -/
def rigW : RigState :=
  { camera := Camera.init, freeCamera := Camera.init, mode := CameraMode.Free }

/-! ## Theorems -/

theorem Vec3.add_def {α : Type} [Add α] (a b : Vec3 α) :
    a + b = ⟨a.x + b.x, a.y + b.y, a.z + b.z⟩ := rfl

theorem Vec3.sub_def {α : Type} [Sub α] (a b : Vec3 α) :
    a - b = ⟨a.x - b.x, a.y - b.y, a.z - b.z⟩ := rfl

theorem Vec3.neg_def {α : Type} [Neg α] (a : Vec3 α) :
    -a = ⟨-a.x, -a.y, -a.z⟩ := rfl

theorem normalizedT_of_ge {t : ℝ} (h : (3 : ℝ) ≤ t) :
    normalizedT t = 1 + (t - 3) / 3 := by
  unfold normalizedT accelerationPhase
  rw [if_neg (by norm_num; linarith)]
  norm_num

theorem tProgress_of_ge {t : ℝ} (h : (3 : ℝ) ≤ t) : tProgress t = 1 := by
  unfold tProgress
  rw [normalizedT_of_ge h]
  have h1 : (1 : ℝ) ≤ 1 + (t - 3) / 3 := by linarith
  norm_num
  linarith

/-- Claim C1: at elapsed time exactly 3.0 seconds, the end of the
acceleration phase, the clamped progress is 1 and the position offset from
the launch origin is 45 laterally, 120 in height and 300 along negative
Z. -/
theorem trajectory_at_end_of_acceleration (vehicleOriginalPos : Vec3 ℝ) :
    tProgress 3 = 1 ∧
    vehiclePosition vehicleOriginalPos 3 = vehicleOriginalPos + ⟨45, 120, -300⟩ := by
  have hp : tProgress 3 = 1 := tProgress_of_ge le_rfl
  refine ⟨hp, ?_⟩
  have hH : horizontalCurve 3 = 45 := by
    unfold horizontalCurve maxDistance
    rw [hp]
    have : (1 : ℝ) * Real.pi * 0.5 = Real.pi / 2 := by ring
    rw [this, Real.sin_pi_div_two]
    norm_num
  have hV : vertical 3 = 120 := by
    unfold vertical maxHeight
    rw [hp]
    norm_num
  have hF : forwardDist 3 = 300 := by
    unfold forwardDist maxDistance
    rw [hp]
    norm_num
  unfold vehiclePosition
  rw [hH, hV, hF]

/-- Claim C2: for every elapsed time at or beyond the 3-second threshold at
which the unclamped progress reaches 1, the vehicle position equals the
position at the threshold time: spatial progress is frozen at clamped
progress 1. -/
theorem trajectory_frozen_beyond_threshold (vehicleOriginalPos : Vec3 ℝ) (t : ℝ)
    (h : (3 : ℝ) ≤ t) :
    vehiclePosition vehicleOriginalPos t = vehiclePosition vehicleOriginalPos 3 := by
  have h1 : tProgress t = 1 := tProgress_of_ge h
  have h2 : tProgress 3 = 1 := tProgress_of_ge le_rfl
  unfold vehiclePosition horizontalCurve vertical forwardDist
  rw [h1, h2]

theorem trajectory_frozen_beyond_threshold_witness :
    (3 : ℝ) ≤ 5 ∧ vehiclePosition ⟨0, 0, 0⟩ 5 = vehiclePosition ⟨0, 0, 0⟩ 3 :=
  ⟨by norm_num, trajectory_frozen_beyond_threshold ⟨0, 0, 0⟩ 5 (by norm_num)⟩

/-- Claim C7: the trajectory orientation computation returns the identity
when the tangent magnitude is at most the 0.001 threshold (no normalization
is attempted), a fixed 180-degree rotation about the world-up Y axis when the
rotation axis is degenerate and the cosine is below -0.99, and the identity
when the axis is degenerate with cosine at least -0.99 (aligned case); the
per-time rotation is this computation applied to the trajectory tangent. -/
theorem tangent_rotation_degenerate_cases (vel : Vec3 ℝ) (t : ℝ) :
    (length3 vel ≤ 0.001 → tangentRotation vel = kIdentity44f) ∧
    (0.001 < length3 vel →
      length3 (cross3 rocketForward (normalize3 vel)) ≤ 0.001 →
      dot3 rocketForward (normalize3 vel) < -0.99 →
      tangentRotation vel = make_rotation_y Real.pi) ∧
    (0.001 < length3 vel →
      length3 (cross3 rocketForward (normalize3 vel)) ≤ 0.001 →
      -0.99 ≤ dot3 rocketForward (normalize3 vel) →
      tangentRotation vel = kIdentity44f) ∧
    vehicleRotation t = tangentRotation (velocity t) := by
  refine ⟨?_, ?_, ?_, rfl⟩
  · intro h
    unfold tangentRotation
    rw [if_neg (not_lt.mpr h)]
  · intro h1 h2 h3
    unfold tangentRotation
    rw [if_pos h1, if_neg (not_lt.mpr h2), if_pos h3]
  · intro h1 h2 h3
    unfold tangentRotation
    rw [if_pos h1, if_neg (not_lt.mpr h2), if_neg (not_lt.mpr h3)]

theorem tangent_rotation_degenerate_cases_witness :
    0.001 < length3 ⟨0, -5, 0⟩ ∧
    length3 (cross3 rocketForward (normalize3 ⟨0, -5, 0⟩)) ≤ 0.001 ∧
    dot3 rocketForward (normalize3 ⟨0, -5, 0⟩) < -0.99 ∧
    tangentRotation ⟨0, -5, 0⟩ = make_rotation_y Real.pi := by
  have l5 : length3 ⟨0, -5, 0⟩ = 5 := by
    unfold length3 dot3
    norm_num
    rw [show (25 : ℝ) = 5 ^ 2 by norm_num]
    exact Real.sqrt_sq (by norm_num)
  have hnorm : normalize3 ⟨0, -5, 0⟩ = ⟨0, -1, 0⟩ := by
    unfold normalize3 smul3
    rw [l5]
    norm_num
  have hcross : cross3 rocketForward (⟨0, -1, 0⟩ : Vec3 ℝ) = ⟨0, 0, 0⟩ := by
    unfold cross3 rocketForward
    norm_num
  have hlc : length3 ⟨0, 0, 0⟩ = 0 := by
    unfold length3 dot3
    norm_num
  have hdot : dot3 rocketForward (⟨0, -1, 0⟩ : Vec3 ℝ) = -1 := by
    unfold dot3 rocketForward
    norm_num
  have h1 : 0.001 < length3 (⟨0, -5, 0⟩ : Vec3 ℝ) := by rw [l5]; norm_num
  have h2 : length3 (cross3 rocketForward (normalize3 ⟨0, -5, 0⟩)) ≤ 0.001 := by
    rw [hnorm, hcross, hlc]; norm_num
  have h3 : dot3 rocketForward (normalize3 (⟨0, -5, 0⟩ : Vec3 ℝ)) < -0.99 := by
    rw [hnorm, hdot]; norm_num
  exact ⟨h1, h2, h3, (tangent_rotation_degenerate_cases ⟨0, -5, 0⟩ 0).2.1 h1 h2 h3⟩

/-- Claim C8 (amended): rotate_pitch clamps: from any camera state and for
any angle delta, the pitch after rotate_pitch has absolute value at most 1.55
radians. -/
theorem rotate_pitch_clamped (c : Camera) (angle : ℝ) :
    |(Camera.rotate_pitch c angle).pitch| ≤ 1.55 := by
  have hup : ∀ d : Camera, (Camera.update_vectors d).pitch = d.pitch := by
    intro d; rfl
  unfold Camera.rotate_pitch
  rw [hup]
  rw [abs_le]
  split_ifs with ha hb hc <;> constructor <;> norm_num <;> linarith

/-- Claim C8 counterexample: look_at does not clamp the pitch.  Aiming the
default camera at a target directly above it sets the pitch to pi over two,
which exceeds 1.55 radians. -/
theorem look_at_pitch_exceeds_clamp :
    1.55 < |(Camera.look_at Camera.init ⟨0, 1, 0⟩ ⟨0, 1, 0⟩).pitch| := by
  have hpitch : (Camera.look_at Camera.init ⟨0, 1, 0⟩ ⟨0, 1, 0⟩).pitch
      = Real.arcsin (normalize3 ((⟨0, 1, 0⟩ : Vec3 ℝ) - Camera.init.position)).y := rfl
  have hsub : (⟨0, 1, 0⟩ : Vec3 ℝ) - Camera.init.position = ⟨0, 1, 0⟩ := by
    rw [Vec3.sub_def]
    norm_num [Camera.init]
  have hlen : length3 (⟨0, 1, 0⟩ : Vec3 ℝ) = 1 := by
    unfold length3 dot3
    norm_num
  have hnorm : (normalize3 (⟨0, 1, 0⟩ : Vec3 ℝ)).y = 1 := by
    unfold normalize3 smul3
    rw [hlen]
    norm_num
  rw [hpitch, hsub, hnorm, Real.arcsin_one]
  have hpi : (3.141592 : ℝ) < Real.pi := Real.pi_gt_d6
  rw [abs_of_pos (by linarith)]
  linarith

theorem frame_update_mode (s : RigState) (inp : FrameInput) :
    (frame_update s inp).mode = s.mode := rfl

theorem frame_update_freeCamera_nonfree (s : RigState) (inp : FrameInput)
    (h : s.mode = CameraMode.Follow ∨ s.mode = CameraMode.Ground) :
    (frame_update s inp).freeCamera = s.freeCamera := by
  rcases h with h | h <;> simp [frame_update, update_camera_by_mode, h]

theorem applyFrames_nonfree (us : List FrameInput) (s : RigState)
    (h : s.mode = CameraMode.Follow ∨ s.mode = CameraMode.Ground) :
    (applyFrames s us).mode = s.mode ∧ (applyFrames s us).freeCamera = s.freeCamera := by
  induction us generalizing s with
  | nil => exact ⟨rfl, rfl⟩
  | cons inp rest ih =>
    have hm : (frame_update s inp).mode = s.mode := rfl
    have hf : (frame_update s inp).freeCamera = s.freeCamera :=
      frame_update_freeCamera_nonfree s inp h
    have hrec := ih (frame_update s inp) (by rw [hm]; exact h)
    refine ⟨?_, ?_⟩
    · show (applyFrames (frame_update s inp) rest).mode = s.mode
      rw [hrec.1, hm]
    · show (applyFrames (frame_update s inp) rest).freeCamera = s.freeCamera
      rw [hrec.2, hf]

/-- Claim C3: cycling the single-screen camera mode Free to Follow to Ground
and back to Free, with arbitrary Follow- and Ground-mode frame updates in
between and no Free-mode input, restores the camera record (hence position,
yaw and pitch) exactly to the pre-cycle Free state. -/
theorem camera_mode_cycle_roundtrip (s : RigState) (h : s.mode = CameraMode.Free)
    (us vs : List FrameInput) :
    (pressC_single (applyFrames (pressC_single (applyFrames (pressC_single s) us)) vs)).camera
      = s.camera ∧
    (pressC_single (applyFrames (pressC_single (applyFrames (pressC_single s) us)) vs)).mode
      = CameraMode.Free := by
  have h1 : pressC_single s = { s with mode := CameraMode.Follow, freeCamera := s.camera } := by
    unfold pressC_single
    rw [h]
  set s1 : RigState := { s with mode := CameraMode.Follow, freeCamera := s.camera } with hs1
  have h2 := applyFrames_nonfree us s1 (Or.inl rfl)
  set s2 := applyFrames s1 us with hs2
  have h3 : pressC_single s2 = { s2 with mode := CameraMode.Ground } := by
    unfold pressC_single
    rw [h2.1]
  set s3 : RigState := { s2 with mode := CameraMode.Ground } with hs3
  have h4 := applyFrames_nonfree vs s3 (Or.inr rfl)
  set s4 := applyFrames s3 vs with hs4
  have h5 : pressC_single s4 = { s4 with mode := CameraMode.Free, camera := s4.freeCamera } := by
    unfold pressC_single
    rw [h4.1]
  rw [h1, ← hs2, h3, ← hs4, h5]
  have hfc : s4.freeCamera = s.camera := by
    rw [h4.2]
    show s2.freeCamera = s.camera
    rw [h2.2]
  exact ⟨hfc, rfl⟩

theorem camera_mode_cycle_roundtrip_witness :
    rigW.mode = CameraMode.Free ∧
    ((pressC_single (applyFrames (pressC_single (applyFrames (pressC_single rigW) [])) [])).camera
        = rigW.camera ∧
      (pressC_single (applyFrames (pressC_single (applyFrames (pressC_single rigW) [])) [])).mode
        = CameraMode.Free) :=
  ⟨rfl, camera_mode_cycle_roundtrip rigW rfl [] []⟩

/-- Claim C9 counterexample: the only pause-toggle input of the program, the
F key, is not a no-op on an idle clock: from the idle state with elapsed time
5 it starts the animation (Running with elapsed 0) instead of leaving the
state unchanged. -/
theorem pressF_idle_not_noop :
    pressF ⟨false, false, 5⟩ = ⟨true, false, 0⟩ ∧
    pressF ⟨false, false, 5⟩ ≠ ⟨false, false, 5⟩ := by
  constructor
  · rfl
  · decide

/-- Claim C9 (amended): the F key toggles Running and Paused with elapsed
time preserved while the clock is active; on an idle clock it instead starts
the animation (Running, elapsed 0).  The launch button from any state enters
Running with elapsed 0, and the R key and the reset button from any state
enter Idle with elapsed 0. -/
theorem clock_transitions (s : ClockState) :
    (s.animationActive = true → pressF s = { s with animationPaused := !s.animationPaused }) ∧
    (s.animationActive = false →
      pressF s = { animationActive := true, animationPaused := false, animationTime := 0 }) ∧
    launch_button s = { animationActive := true, animationPaused := false, animationTime := 0 } ∧
    pressR s = { animationActive := false, animationPaused := false, animationTime := 0 } ∧
    reset_button s = { animationActive := false, animationPaused := false, animationTime := 0 } := by
  refine ⟨?_, ?_, rfl, rfl, rfl⟩
  · intro h
    unfold pressF
    rw [h]
    rfl
  · intro h
    unfold pressF
    rw [h]
    rfl

theorem clock_transitions_witness :
    (⟨true, true, 7⟩ : ClockState).animationActive = true ∧
    pressF ⟨true, true, 7⟩ = ⟨true, false, 7⟩ :=
  ⟨rfl, (clock_transitions ⟨true, true, 7⟩).1 rfl⟩

theorem emitLoop_length (pos : Vec3 ℚ) (draws : ℕ → Draw) :
    ∀ (n i : ℕ) (l : List Particle), (emitLoop pos draws n i l).length = l.length := by
  intro n
  induction n with
  | zero => intro i l; rfl
  | succ n ih =>
    intro i l
    cases hf : find_inactive_particle l with
    | none => simp [emitLoop, hf]
    | some idx => simp [emitLoop, hf, ih]

theorem find_inactive_none_countP :
    ∀ l : List Particle, find_inactive_particle l = none →
      l.countP (fun p => !p.active) = 0 := by
  intro l
  induction l with
  | nil => intro _; rfl
  | cons p rest ih =>
    intro h
    cases hp : p.active with
    | false => simp [find_inactive_particle, hp] at h
    | true =>
      have hrest : find_inactive_particle rest = none := by
        simpa [find_inactive_particle, hp] using h
      rw [List.countP_cons]
      simp [hp, ih hrest]

theorem countP_set_of_find (q : Particle) (hq : q.active = true) :
    ∀ (l : List Particle) (idx : ℕ), find_inactive_particle l = some idx →
      (l.set idx q).countP (fun p => p.active) = l.countP (fun p => p.active) + 1 ∧
      (l.set idx q).countP (fun p => !p.active) + 1 = l.countP (fun p => !p.active) := by
  intro l
  induction l with
  | nil => intro idx h; simp [find_inactive_particle] at h
  | cons p rest ih =>
    intro idx h
    cases hp : p.active with
    | true =>
      simp only [find_inactive_particle, hp, if_pos, Option.map_eq_some'] at h
      obtain ⟨j, hj, hidx⟩ := h
      subst hidx
      have hrec := ih j hj
      constructor
      · simp only [List.set_cons_succ, List.countP_cons, hp]
        omega
      · simp only [List.set_cons_succ, List.countP_cons, hp]
        omega
    | false =>
      simp [find_inactive_particle, hp] at h
      subst h
      constructor
      · simp [List.set_cons_zero, List.countP_cons, hp, hq]
      · simp [List.set_cons_zero, List.countP_cons, hp, hq]

theorem emitLoop_countP (pos : Vec3 ℚ) (draws : ℕ → Draw) :
    ∀ (n i : ℕ) (l : List Particle),
      (emitLoop pos draws n i l).countP (fun p => p.active)
        = l.countP (fun p => p.active) + min n (l.countP (fun p => !p.active)) ∧
      (emitLoop pos draws n i l).countP (fun p => !p.active)
        = l.countP (fun p => !p.active) - min n (l.countP (fun p => !p.active)) := by
  intro n
  induction n with
  | zero => intro i l; simp [emitLoop]
  | succ n ih =>
    intro i l
    cases hf : find_inactive_particle l with
    | none =>
      have h0 : l.countP (fun p => !p.active) = 0 := find_inactive_none_countP l hf
      simp [emitLoop, hf, h0]
    | some idx =>
      have hset := countP_set_of_find (make_particle pos (draws i)) rfl l idx hf
      have hrec := ih (i + 1) (l.set idx (make_particle pos (draws i)))
      have hstep : emitLoop pos draws (n + 1) i l
          = emitLoop pos draws n (i + 1) (l.set idx (make_particle pos (draws i))) := by
        simp [emitLoop, hf]
      rw [hstep]
      obtain ⟨e1, e2⟩ := hset
      obtain ⟨r1, r2⟩ := hrec
      constructor
      · rw [r1]
        omega
      · rw [r2]
        omega

theorem update_particles_length (ps : ParticleSystem) (dt : ℚ) (pos : Vec3 ℚ)
    (em : Bool) (draws : ℕ → Draw) :
    ((ps.update dt pos em draws).particles).length = ps.particles.length := by
  unfold ParticleSystem.update ParticleSystem.emit_particles
  cases em with
  | false => simp
  | true => simp [emitLoop_length]

/-- Claim C4: for every sequence of updates, the pool keeps exactly the
capacity configured at construction and the number of active particles never
exceeds it: a full pool silently drops emission requests and never grows. -/
theorem particle_pool_capacity (cap : ℕ) (us : List UpdateCall) :
    ((applyUpdates (ParticleSystem.create cap) us).particles).length = cap ∧
    activeCount (applyUpdates (ParticleSystem.create cap) us) ≤ cap := by
  have hlen : ∀ (vs : List UpdateCall) (ps : ParticleSystem),
      ((applyUpdates ps vs).particles).length = ps.particles.length := by
    intro vs
    induction vs with
    | nil => intro ps; rfl
    | cons u rest ih =>
      intro ps
      show ((applyUpdates (ps.update u.deltaTime u.emitterPosition u.emitting u.draws) rest).particles).length = _
      rw [ih, update_particles_length]
  have h1 : ((applyUpdates (ParticleSystem.create cap) us).particles).length = cap := by
    rw [hlen]
    simp [ParticleSystem.create]
  refine ⟨h1, ?_⟩
  calc activeCount (applyUpdates (ParticleSystem.create cap) us)
      ≤ ((applyUpdates (ParticleSystem.create cap) us).particles).length :=
        List.countP_le_length _
    _ = cap := h1

/-- Claim C10: emit_particles always subtracts the full computed emission
count from the accumulator, independently of how many free slots exist, and
activates only the minimum of that count and the free-slot count: particles
dropped by a full pool are never carried over to later frames. -/
theorem emission_full_pool_drops_permanently (ps : ParticleSystem) (dt : ℚ)
    (pos : Vec3 ℚ) (draws : ℕ → Draw) :
    (ps.emit_particles dt pos draws).emissionAccumulator
      = ps.emissionAccumulator + ps.emissionRate * dt
        - truncToInt (ps.emissionAccumulator + ps.emissionRate * dt) ∧
    activeCount (ps.emit_particles dt pos draws)
      = activeCount ps
        + min (truncToInt (ps.emissionAccumulator + ps.emissionRate * dt)).toNat (freeCount ps) := by
  refine ⟨rfl, ?_⟩
  exact (emitLoop_countP pos draws
    (truncToInt (ps.emissionAccumulator + ps.emissionRate * dt)).toNat 0 ps.particles).1

/-- Claim C5: emission uses a fractional accumulator: with a nonnegative
running total and enough free slots, emit_particles emits exactly the floor
of accumulator plus rate times dt new active particles and keeps exactly the
fractional remainder in the accumulator. -/
theorem emission_fractional_accumulator (ps : ParticleSystem) (dt : ℚ)
    (pos : Vec3 ℚ) (draws : ℕ → Draw)
    (hacc : 0 ≤ ps.emissionAccumulator + ps.emissionRate * dt)
    (hfree : (⌊ps.emissionAccumulator + ps.emissionRate * dt⌋).toNat ≤ freeCount ps) :
    (ps.emit_particles dt pos draws).emissionAccumulator
      = ps.emissionAccumulator + ps.emissionRate * dt
        - ⌊ps.emissionAccumulator + ps.emissionRate * dt⌋ ∧
    activeCount (ps.emit_particles dt pos draws)
      = activeCount ps + (⌊ps.emissionAccumulator + ps.emissionRate * dt⌋).toNat := by
  have htr : truncToInt (ps.emissionAccumulator + ps.emissionRate * dt)
      = ⌊ps.emissionAccumulator + ps.emissionRate * dt⌋ := if_pos hacc
  have h1 : (ps.emit_particles dt pos draws).emissionAccumulator
      = ps.emissionAccumulator + ps.emissionRate * dt
        - truncToInt (ps.emissionAccumulator + ps.emissionRate * dt) := rfl
  have h2 : activeCount (ps.emit_particles dt pos draws)
      = activeCount ps
        + min (truncToInt (ps.emissionAccumulator + ps.emissionRate * dt)).toNat (freeCount ps) :=
    (emitLoop_countP pos draws
      (truncToInt (ps.emissionAccumulator + ps.emissionRate * dt)).toNat 0 ps.particles).1
  rw [htr] at h1 h2
  rw [min_eq_left hfree] at h2
  exact ⟨h1, h2⟩

theorem emission_fractional_accumulator_witness :
    0 ≤ psW.emissionAccumulator + psW.emissionRate * (1/10) ∧
    (⌊psW.emissionAccumulator + psW.emissionRate * (1/10)⌋).toNat ≤ freeCount psW ∧
    ((psW.emit_particles (1/10) ⟨0, 0, 0⟩ (fun _ => drawW)).emissionAccumulator
        = psW.emissionAccumulator + psW.emissionRate * (1/10)
          - ⌊psW.emissionAccumulator + psW.emissionRate * (1/10)⌋ ∧
      activeCount (psW.emit_particles (1/10) ⟨0, 0, 0⟩ (fun _ => drawW))
        = activeCount psW + (⌊psW.emissionAccumulator + psW.emissionRate * (1/10)⌋).toNat) := by
  have h20 : psW.emissionAccumulator + psW.emissionRate * (1/10) = (20 : ℚ) := by
    norm_num [psW, ParticleSystem.set_emission_rate, ParticleSystem.create]
  have hacc : 0 ≤ psW.emissionAccumulator + psW.emissionRate * (1/10) := by
    rw [h20]
    norm_num
  have hfc : freeCount psW = 30 := rfl
  have hfree : (⌊psW.emissionAccumulator + psW.emissionRate * (1/10)⌋).toNat ≤ freeCount psW := by
    rw [h20, hfc]
    simp
  exact ⟨hacc, hfree,
    emission_fractional_accumulator psW (1/10) ⟨0, 0, 0⟩ (fun _ => drawW) hacc hfree⟩

theorem find_inactive_some_lookup :
    ∀ (l : List Particle) (idx : ℕ), find_inactive_particle l = some idx →
      ∃ r, l[idx]? = some r ∧ r.active = false := by
  intro l
  induction l with
  | nil => intro idx h; simp [find_inactive_particle] at h
  | cons p rest ih =>
    intro idx h
    cases hp : p.active with
    | true =>
      simp only [find_inactive_particle, hp, if_pos, Option.map_eq_some'] at h
      obtain ⟨j, hj, hidx⟩ := h
      subst hidx
      obtain ⟨r, hr, hra⟩ := ih j hj
      exact ⟨r, by simpa using hr, hra⟩
    | false =>
      simp [find_inactive_particle, hp] at h
      subst h
      exact ⟨p, by simp, hp⟩

theorem emitLoop_preserves_active (pos : Vec3 ℚ) (draws : ℕ → Draw) :
    ∀ (n i : ℕ) (l : List Particle) (j : ℕ) (p : Particle),
      l[j]? = some p → p.active = true →
      (emitLoop pos draws n i l)[j]? = some p := by
  intro n
  induction n with
  | zero => intro i l j p hj _; simpa [emitLoop] using hj
  | succ n ih =>
    intro i l j p hj hact
    cases hf : find_inactive_particle l with
    | none => simpa [emitLoop, hf] using hj
    | some idx =>
      obtain ⟨r, hr, hra⟩ := find_inactive_some_lookup l idx hf
      have hne : idx ≠ j := by
        intro he
        subst he
        rw [hj] at hr
        have : p = r := by injection hr
        rw [← this] at hra
        rw [hact] at hra
        cases hra
      have hstep : emitLoop pos draws (n + 1) i l
          = emitLoop pos draws n (i + 1) (l.set idx (make_particle pos (draws i))) := by
        simp [emitLoop, hf]
      rw [hstep]
      apply ih
      · rw [List.getElem?_set_ne hne]
        exact hj
      · exact hact

/-- Claim C6: every particle that is active before an update and survives it
(its lifetime minus dt stays positive) comes out with its lifetime
decremented, its position advanced by velocity times dt, and its alpha set to
the remaining lifetime divided by the configured maximum lifetime of the
system (not the particle's own sampled lifetime). -/
theorem survivor_alpha_from_max_lifetime (ps : ParticleSystem) (dt : ℚ) (pos : Vec3 ℚ)
    (em : Bool) (draws : ℕ → Draw) (j : ℕ) (p : Particle)
    (hj : ps.particles[j]? = some p) (hact : p.active = true)
    (hsurv : 0 < p.lifetime - dt) :
    ((ps.update dt pos em draws).particles)[j]? = some
      { p with
          lifetime := p.lifetime - dt
          position := p.position + smul3 p.velocity dt
          color := { p.color with w := (p.lifetime - dt) / ps.maxLifetime } } := by
  have hage : age_particle dt ps.maxLifetime p
      = { p with
            lifetime := p.lifetime - dt
            position := p.position + smul3 p.velocity dt
            color := { p.color with w := (p.lifetime - dt) / ps.maxLifetime } } := by
    unfold age_particle
    rw [if_pos hact, if_neg (not_le.mpr hsurv)]
  have hmap : (ps.particles.map (age_particle dt ps.maxLifetime))[j]? = some
      { p with
          lifetime := p.lifetime - dt
          position := p.position + smul3 p.velocity dt
          color := { p.color with w := (p.lifetime - dt) / ps.maxLifetime } } := by
    rw [List.getElem?_map, hj, Option.map_some', hage]
  have hqact :
      ({ p with
          lifetime := p.lifetime - dt
          position := p.position + smul3 p.velocity dt
          color := { p.color with w := (p.lifetime - dt) / ps.maxLifetime } } : Particle).active
        = true := hact
  unfold ParticleSystem.update
  cases em with
  | false => simpa using hmap
  | true =>
    show ((ParticleSystem.emit_particles _ dt pos draws).particles)[j]? = _
    exact emitLoop_preserves_active pos draws _ 0 _ j _ hmap hqact

theorem survivor_alpha_from_max_lifetime_witness :
    psW6.particles[0]? = some pW ∧ pW.active = true ∧ 0 < pW.lifetime - 1/2 ∧
    ((psW6.update (1/2) ⟨0, 0, 0⟩ true (fun _ => drawW)).particles)[0]? = some
      { pW with
          lifetime := pW.lifetime - 1/2
          position := pW.position + smul3 pW.velocity (1/2)
          color := { pW.color with w := (pW.lifetime - 1/2) / psW6.maxLifetime } } :=
  ⟨rfl, rfl, by norm_num [pW],
    survivor_alpha_from_max_lifetime psW6 (1/2) ⟨0, 0, 0⟩ true (fun _ => drawW) 0 pW rfl rfl
      (by norm_num [pW])⟩
